import Mathlib

/-!
# Verification of the Yootil editor tab switcher and page-data lookup

Shallow embedding of `yootil.create.bbc_tab` (src/src/create.js) and
`yootil.page.__get_data` (the page-data wrapper source file).

The embedding models the DOM fragment the code manipulates: the tab row
(`ul.wysiwyg-tabs` and its `li` headers), the content panels addressable by
id, and the platform's native editor surface (`.editor .ui-wysiwyg .editors`).
Panel visibility is the only mutable state, exactly as in the source, and a
click handler run is modelled as the list of primitive DOM / callback actions
it performs, in order, together with the resulting DOM state.

The JavaScript string primitives the handler uses (`String.prototype.split`,
`toLowerCase`, regex containment) are implemented here over `List Char` by
structural recursion so that every definition evaluates inside the kernel.
-/

namespace Yootil

/-- `pat` is a prefix of the character list (Boolean, structural). -/
def prefixAt (pat : List Char) (s : List Char) : Bool :=
  match pat, s with
  | [], _ => true
  | _ :: _, [] => false
  | a :: as, b :: bs => a = b && prefixAt as bs

/-- JavaScript `s.split(pat)` over character lists, with `fuel` bounding the
number of steps (one character or one separator occurrence is consumed per
step, so `fuel = s.length` suffices).  Nonempty separators only, which is all
create.js uses. -/
def jsSplitL (pat : List Char) : Nat → List Char → List (List Char)
  | _, [] => [[]]
  | 0, s => [s]
  | fuel + 1, c :: rest =>
    if pat ≠ [] && prefixAt pat (c :: rest) then
      [] :: jsSplitL pat fuel (List.drop (pat.length - 1) rest)
    else
      match jsSplitL pat fuel rest with
      | [] => [[c]]
      | piece :: more => (c :: piece) :: more

/-- JavaScript `s.split(pat)` on strings. -/
def jsSplitOn (s pat : String) : List String :=
  (jsSplitL pat.data s.data.length s.data).map String.mk

/-- JavaScript ASCII lower-casing of one character (what the `i` flag of
`/bbcode|visual/i` needs on element ids). -/
def jsLowerChar (c : Char) : Char :=
  if 'A' ≤ c && c ≤ 'Z' then Char.ofNat (c.toNat + 32) else c

/-- JavaScript `s.toLowerCase()` restricted to ASCII letters. -/
def jsToLower (s : String) : String :=
  String.mk (s.data.map jsLowerChar)

/-- JavaScript substring containment: `s.split(pat)` has more than one piece
iff the (nonempty) pattern occurs in `s`. -/
def containsSub (s pat : String) : Bool :=
  (jsSplitOn s pat).length != 1

/-- Model of `id.match(/bbcode|visual/i)` (create.js lines 231 and 265): the
id names a reserved built-in editor tab when it contains `bbcode` or `visual`
case-insensitively. -/
def isBuiltinId (id : String) : Bool :=
  containsSub (jsToLower id) "bbcode" || containsSub (jsToLower id) "visual"

/-- Model of `"#" + id.split("menu-item-")[1]` (create.js lines 241 and 262):
the panel id resolved from a header id.  In JavaScript, indexing past the end
of the split array yields `undefined`, which string-concatenates to the text
`"undefined"`. -/
def resolvedPanelId (id : String) : String :=
  ((jsSplitOn id "menu-item-")[1]?).getD "undefined"

/-- A JavaScript value stored in the platform page-data object: string,
number, array or object (the types documented for `__get_data`). -/
inductive JsVal where
  | str (s : String)
  | num (n : Int)
  | arr (elems : List JsVal)
  | obj (fields : List (String × JsVal))

/-- First-match association-list lookup over string keys, modelling
`document.getElementById` / jQuery `$("#id")` resolution (first element in
document order wins) and JavaScript property lookup. -/
def plookup {α : Type} (p : String) : List (String × α) → Option α
  | [] => none
  | (k, v) :: rest => if k = p then some v else plookup p rest

/-- Model of `yootil.page.__get_data(key)`: the three-level presence check
`proboards && proboards.dataHash && proboards.dataHash.page` followed by a
`typeof page[key] != "undefined"` guard; absent levels or keys yield `""`. -/
def __get_data (proboards : Option (Option (Option (List (String × JsVal)))))
    (key : String) : JsVal :=
  match proboards with
  | some (some (some page)) =>
    match plookup key page with
    | some v => v
    | none => JsVal.str ""
  | _ => JsVal.str ""

/-- The mutable DOM state the tab switch handler reads and writes: the
content panels addressable by id (in document order, each with its current
visibility) and the visibility of the native editor surface. -/
structure EditorDom where
  panels : List (String × Bool)
  editorsVisible : Bool
deriving DecidableEq, Repr

/-- `$("#p").length` is nonzero: an element with id `p` exists. -/
def panelExists (d : EditorDom) (p : String) : Bool :=
  (plookup p d.panels).isSome

/-- Set the visibility of the first element with id `p` (jQuery `$("#p")`
resolves ids to the first match in document order); no-op when absent. -/
def setPanel {α : Type} (l : List (String × α)) (p : String) (v : α) : List (String × α) :=
  match l with
  | [] => []
  | (k, b) :: rest => if k = p then (k, v) :: rest else (k, b) :: setPanel rest p v

/-- The events configuration of one `bbc_tab` registration: whether a
`show` / `hide` callback was supplied.  The optional `context` member only
rebinds `this` inside the callback; it changes neither the arguments passed
nor the order of operations, so it is not modelled. -/
structure EventsCfg where
  hasShow : Bool
  hasHide : Bool
deriving DecidableEq, Repr

/-- The data one `bbc_tab` call captures in its click-handler closure: the
created tab header (`$tab`, identified by its id `menu-item-<id>`), the
created content panel (`$tab_content`, identified by its id `<id>`) and the
events configuration. -/
structure Reg where
  tabId : String
  panelId : String
  events : EventsCfg
deriving DecidableEq, Repr

/-- One primitive step performed by a click-handler run, in order: a user
callback invocation (recording the two arguments passed) or a DOM visibility
change. -/
inductive Action where
  | cbHide (tabId panelId : String)
  | cbShow (tabId panelId : String)
  | hidePanel (p : String)
  | showPanel (p : String)
  | hideEditors
  | showEditors
deriving DecidableEq, Repr

/-- Actions of the `events.hide` invocation (create.js lines 245-251): the
callback receives the registration's own `$tab` and `$tab_content`. -/
def hideCbActs (reg : Reg) : List Action :=
  if reg.events.hasHide then [Action.cbHide reg.tabId reg.panelId] else []

/-- Actions of the `events.show` invocation (create.js lines 270-276). -/
def showCbActs (reg : Reg) : List Action :=
  if reg.events.hasShow then [Action.cbShow reg.tabId reg.panelId] else []

/-- One iteration of the `.each` loop over all headers in the row
(create.js lines 228-256), for the header with id attribute `liId`, given
the clicked header's id `activeId` and the DOM at handler start `dom`:
built-in ids hide the native editor surface; the clicked header is skipped;
otherwise, when the resolved panel exists, the `hide` callback fires and then
the panel is hidden (an empty id leaves the selector empty, matching
nothing). -/
def loopStep (dom : EditorDom) (reg : Reg) (activeId liId : String) : List Action :=
  if isBuiltinId liId then [Action.hideEditors]
  else if activeId = liId then []
  else if liId ≠ "" ∧ panelExists dom (resolvedPanelId liId) then
    hideCbActs reg ++ [Action.hidePanel (resolvedPanelId liId)]
  else []

/-- The code after the loop (create.js lines 258-279), for the clicked
header's id `activeId`: a built-in id shows the native editor surface;
otherwise, when the resolved panel exists, the `show` callback fires and then
the panel is shown. -/
def afterLoop (dom : EditorDom) (reg : Reg) (activeId : String) : List Action :=
  if isBuiltinId activeId then [Action.showEditors]
  else if activeId ≠ "" ∧ panelExists dom (resolvedPanelId activeId) then
    showCbActs reg ++ [Action.showPanel (resolvedPanelId activeId)]
  else []

/-- Reading `$(this).attr("id")` for every header in the row: the loop body
evaluates `id.match(...)` without a guard, so the first header whose id
attribute is absent (JavaScript `undefined`) raises a `TypeError`, modelled
as `none`. -/
def extractIds : List (Option String) → Option (List String)
  | [] => some []
  | some s :: rest => (extractIds rest).map (fun l => s :: l)
  | none :: _ => none

/-- One full run of the click handler closure of create.js lines 220-280 for
the registration `reg`, on a row whose headers carry the id attributes
`rowIds`, when the header with id attribute `clickedId` is clicked.  `none`
models an uncaught `TypeError` from pattern-matching an undefined id. -/
def runHandler (rowIds : List (Option String)) (clickedId : Option String)
    (reg : Reg) (dom : EditorDom) : Option (List Action) :=
  match extractIds rowIds, clickedId with
  | some ids, some aid =>
    some ((ids.map (loopStep dom reg aid)).flatten ++ afterLoop dom reg aid)
  | _, _ => none

/-- Effect of one action on the DOM (callbacks are notifications and do not
themselves change panel visibility). -/
def applyAction (dom : EditorDom) : Action → EditorDom
  | Action.hidePanel p => { dom with panels := setPanel dom.panels p false }
  | Action.showPanel p => { dom with panels := setPanel dom.panels p true }
  | Action.hideEditors => { dom with editorsVisible := false }
  | Action.showEditors => { dom with editorsVisible := true }
  | _ => dom

/-- Effect of a handler run's action list on the DOM, in order. -/
def applyActions (dom : EditorDom) (acts : List Action) : EditorDom :=
  acts.foldl applyAction dom

/-- Modelled from the spec: `yootil.timestamp()` is called by `bbc_tab`
(create.js line 199) but its source is not under src/.  The spec states the
assigned value is usable as a valid DOM identifier and that two registrations
without explicit ids never collide, so the generator is modelled as a
whitespace-free, nonempty string that is an injective function of the number
of timestamp calls made so far. -/
def yootilTimestamp (calls : Nat) : String :=
  String.mk (List.replicate (calls + 1) '1')

/-- A character HTML5 forbids in an id attribute value (ASCII whitespace). -/
def isSpaceChar (c : Char) : Bool :=
  c = ' ' || c = '\t' || c = '\n' || c = '\x0b' || c = '\x0c' || c = '\r'

/-- A string usable as a valid HTML5 DOM id: nonempty, no whitespace. -/
def validDomId (s : String) : Bool :=
  !s.data.isEmpty && s.data.all (fun c => !isSpaceChar c)

/-- The arguments of one `bbc_tab` call.  `id = ""` means no explicit id
(line 199 treats the empty string as falsy).  The `title` and `content`
strings become the header label and the panel markup; neither is read by any
logic in create.js, and the `css` argument only sets style properties other
than visibility, so they are carried but not interpreted. -/
structure RegSpec where
  title : String
  content : String
  id : String
  events : EventsCfg
deriving DecidableEq, Repr

/-- One `li` element of the tab row: its id attribute and the click handlers
attached to it so far, in attachment (= firing) order. -/
structure Li where
  id : Option String
  handlers : List Reg
deriving DecidableEq, Repr

/-- The state of the editor fragment across `bbc_tab` registrations: the tab
row's `li` elements in order, the ids of the panels sitting before the row in
document order (each new panel is inserted immediately before the row), the
visibility state, and the number of `yootil.timestamp()` calls made. -/
structure TabSystem where
  lis : List Li
  beforeRow : List String
  dom : EditorDom
  tsCalls : Nat
deriving DecidableEq, Repr

/-- The id `bbc_tab` uses for a registration (create.js line 199):
`id = id || yootil.timestamp()`. -/
def assignedId (sys : TabSystem) (spec : RegSpec) : String :=
  if spec.id = "" then yootilTimestamp sys.tsCalls else spec.id

/-- The click-handler closure data a `bbc_tab` call captures: its `$tab` and
`$tab_content` (by their ids) and its events configuration. -/
def regOf (sys : TabSystem) (spec : RegSpec) : Reg :=
  ⟨"menu-item-" ++ assignedId sys spec, assignedId sys spec, spec.events⟩

/-- Model of one `yootil.create.bbc_tab` call (create.js lines 198-283),
assuming the tab row exists in the document: assign the id; append the
header `li#menu-item-<id>` to the row; create the panel `div#<id>`, hidden,
inserted immediately before the row; then attach the click handler closure to
every `li` currently in the row (including the new one and the built-in
ones).  Returns the new state and the created content panel (by its id),
which is the function's return value. -/
def bbc_tab (sys : TabSystem) (spec : RegSpec) : TabSystem × String :=
  (⟨(sys.lis ++ [(⟨some ("menu-item-" ++ assignedId sys spec), []⟩ : Li)]).map
      (fun li => (⟨li.id, li.handlers ++ [regOf sys spec]⟩ : Li)),
    sys.beforeRow ++ [assignedId sys spec],
    ⟨sys.dom.panels ++ [(assignedId sys spec, false)], sys.dom.editorsVisible⟩,
    if spec.id = "" then sys.tsCalls + 1 else sys.tsCalls⟩,
   assignedId sys spec)

/-- A sequence of `bbc_tab` calls in order. -/
def registerAll (sys : TabSystem) (specs : List RegSpec) : TabSystem :=
  specs.foldl (fun s sp => (bbc_tab s sp).1) sys

/-- The handlers attached to the row `li` whose id attribute is `liId`. -/
def handlersAt (sys : TabSystem) (liId : String) : List Reg :=
  ((sys.lis.find? (fun li => li.id = some liId)).map Li.handlers).getD []

/-- jQuery click dispatch: the handlers attached to the clicked element run
in attachment order, each reading the DOM left by the previous one; the first
uncaught exception aborts the dispatch. -/
def dispatchClick (rowIds : List (Option String)) (clickedId : Option String) :
    List Reg → EditorDom → Option (List Action × EditorDom)
  | [], dom => some ([], dom)
  | r :: rest, dom =>
    match runHandler rowIds clickedId r dom with
    | none => none
    | some acts =>
      match dispatchClick rowIds clickedId rest (applyActions dom acts) with
      | none => none
      | some (acts2, dom3) => some (acts ++ acts2, dom3)

/-- A user click on the row `li` whose id attribute is `liId`: dispatch its
attached handlers over the current row contents. -/
def clickOn (sys : TabSystem) (liId : String) : Option (List Action × TabSystem) :=
  match dispatchClick (sys.lis.map Li.id) (some liId) (handlersAt sys liId) sys.dom with
  | none => none
  | some (acts, dom2) => some (acts, { sys with dom := dom2 })

/-- The actions a click performs (empty when it throws) — inspection helper. -/
def clickActs (sys : TabSystem) (liId : String) : List Action :=
  ((clickOn sys liId).map Prod.fst).getD []

/-- The state a click leaves (unchanged when it throws) — inspection helper. -/
def clickSys (sys : TabSystem) (liId : String) : TabSystem :=
  ((clickOn sys liId).map Prod.snd).getD sys

/-- The editor fragment as ProBoards renders it before any registration: the
two built-in mode tabs, no custom panels, the native editor surface visible,
no timestamp calls yet. -/
def initialRow : TabSystem :=
  ⟨[⟨some "bbcode", []⟩, ⟨some "visual", []⟩], [], ⟨[], true⟩, 0⟩

/-- A well-formed registered custom id, as `bbc_tab` produces for ordinary
user ids: nonempty, its header id `menu-item-<id>` is not mistaken for a
built-in tab by the regex, and the handler's `split("menu-item-")[1]`
resolution recovers the panel id from the header id. -/
def goodId (i : String) : Prop :=
  i ≠ "" ∧ isBuiltinId ("menu-item-" ++ i) = false ∧ resolvedPanelId ("menu-item-" ++ i) = i

instance (i : String) : Decidable (goodId i) := by
  unfold goodId; infer_instance

/-- A tab row as ProBoards renders it once `bbc_tab` has registered the
custom tabs with panel ids `customIds`: the two built-in mode headers
followed by one `li#menu-item-<id>` per registration. -/
def rowStrings (customIds : List String) : List String :=
  "bbcode" :: "visual" :: customIds.map (fun i => "menu-item-" ++ i)

/-- The id attributes of such a row (all present). -/
def rowIdsOf (customIds : List String) : List (Option String) :=
  (rowStrings customIds).map some

/-- The closure data `bbc_tab` captures for a registration whose explicit id
is nonempty (then it does not depend on the timestamp counter). -/
def regOfSpec (spec : RegSpec) : Reg :=
  ⟨"menu-item-" ++ spec.id, spec.id, spec.events⟩

/-- Append further attached handlers to an `li`. -/
def extendHandlers (rs : List Reg) (li : Li) : Li :=
  ⟨li.id, li.handlers ++ rs⟩

/-- The `li`s a sequence of explicit-id registrations creates: the one made
by registration `j` carries the handlers of registrations `j, j+1, …`. -/
def newLis : List RegSpec → List Li
  | [] => []
  | sp :: rest => ⟨some ("menu-item-" ++ sp.id), (sp :: rest).map regOfSpec⟩ :: newLis rest

/-- A concrete two-panel document used to instantiate the general theorems:
panel `alpha` hidden, panel `beta` visible, native editor surface visible. -/
def demoDom : EditorDom :=
  ⟨[("alpha", false), ("beta", true)], true⟩

/-- A concrete registration closure for the `alpha` tab with both
callbacks supplied. -/
def demoReg : Reg :=
  ⟨"menu-item-alpha", "alpha", ⟨true, true⟩⟩

/-- State after registering one custom tab `a` (both callbacks supplied) on
the pristine editor fragment. -/
def c2sys1 : TabSystem :=
  (bbc_tab initialRow ⟨"My Tab", "content", "a", ⟨true, true⟩⟩).1

/-- State after then clicking tab `a` once: panel `a` is visible and its
header is the active one. -/
def c2sys2 : TabSystem :=
  clickSys c2sys1 "menu-item-a"

/-- State after two explicit-id registrations `a` then `b` (both with both
callbacks supplied) on the pristine editor fragment. -/
def c10sys : TabSystem :=
  registerAll initialRow
    [⟨"A", "1", "a", ⟨true, true⟩⟩, ⟨"B", "2", "b", ⟨true, true⟩⟩]

/-! ## Helper lemmas -/

theorem append_cancel_str {s a b : String} (h : s ++ a = s ++ b) : a = b := by
  have h2 : (s ++ a).data = (s ++ b).data := by rw [h]
  rw [String.data_append, String.data_append] at h2
  have h3 := List.append_cancel_left h2
  cases a; cases b; exact congrArg String.mk h3

theorem plookup_setPanel_self {α : Type} (l : List (String × α)) (p : String) (v : α) :
    plookup p (setPanel l p v) = (plookup p l).map (fun _ => v) := by
  induction l with
  | nil => simp [setPanel, plookup]
  | cons kv rest ih =>
    obtain ⟨k, b⟩ := kv
    by_cases h : k = p
    · simp [setPanel, plookup, h]
    · simp [setPanel, plookup, h, ih]

theorem plookup_setPanel_ne {α : Type} (l : List (String × α)) (p q : String) (v : α)
    (h : q ≠ p) : plookup q (setPanel l p v) = plookup q l := by
  induction l with
  | nil => simp [setPanel, plookup]
  | cons kv rest ih =>
    obtain ⟨k, b⟩ := kv
    by_cases hk : k = p
    · subst hk
      simp [setPanel, plookup, Ne.symm h]
    · simp [setPanel, plookup, hk, ih]

theorem plookup_append_left {α : Type} (l1 l2 : List (String × α)) (p : String)
    (h : plookup p l1 = none) : plookup p (l1 ++ l2) = plookup p l2 := by
  induction l1 with
  | nil => simp
  | cons kv rest ih =>
    obtain ⟨k, b⟩ := kv
    by_cases hk : k = p
    · simp [plookup, hk] at h
    · simp [plookup, hk] at h ⊢
      exact ih h

theorem applyActions_append (dom : EditorDom) (l1 l2 : List Action) :
    applyActions dom (l1 ++ l2) = applyActions (applyActions dom l1) l2 :=
  List.foldl_append ..

theorem applyActions_hideCb (dom : EditorDom) (reg : Reg) (rest : List Action) :
    applyActions dom (hideCbActs reg ++ rest) = applyActions dom rest := by
  unfold hideCbActs
  split <;> simp [applyActions, applyAction]

theorem applyActions_showCb (dom : EditorDom) (reg : Reg) (rest : List Action) :
    applyActions dom (showCbActs reg ++ rest) = applyActions dom rest := by
  unfold showCbActs
  split <;> simp [applyActions, applyAction]

theorem loopStep_builtin (dom : EditorDom) (reg : Reg) (aid liId : String)
    (h : isBuiltinId liId = true) : loopStep dom reg aid liId = [Action.hideEditors] := by
  simp [loopStep, h]

theorem loopStep_active (dom : EditorDom) (reg : Reg) (aid liId : String)
    (hb : isBuiltinId liId = false) (ha : aid = liId) : loopStep dom reg aid liId = [] := by
  simp [loopStep, hb, ha]

theorem loopStep_hide (dom : EditorDom) (reg : Reg) (aid liId : String)
    (hb : isBuiltinId liId = false) (ha : aid ≠ liId) (hne : liId ≠ "")
    (hex : panelExists dom (resolvedPanelId liId) = true) :
    loopStep dom reg aid liId = hideCbActs reg ++ [Action.hidePanel (resolvedPanelId liId)] := by
  simp [loopStep, hb, ha, hne, hex]

theorem loopStep_noPanel (dom : EditorDom) (reg : Reg) (aid liId : String)
    (hb : isBuiltinId liId = false)
    (hex : panelExists dom (resolvedPanelId liId) = false) :
    loopStep dom reg aid liId = [] := by
  by_cases ha : aid = liId <;> simp [loopStep, hb, ha, hex]

theorem afterLoop_builtin (dom : EditorDom) (reg : Reg) (aid : String)
    (h : isBuiltinId aid = true) : afterLoop dom reg aid = [Action.showEditors] := by
  simp [afterLoop, h]

theorem afterLoop_show (dom : EditorDom) (reg : Reg) (aid : String)
    (hb : isBuiltinId aid = false) (hne : aid ≠ "")
    (hex : panelExists dom (resolvedPanelId aid) = true) :
    afterLoop dom reg aid = showCbActs reg ++ [Action.showPanel (resolvedPanelId aid)] := by
  simp [afterLoop, hb, hne, hex]

theorem afterLoop_noPanel (dom : EditorDom) (reg : Reg) (aid : String)
    (hb : isBuiltinId aid = false)
    (hex : panelExists dom (resolvedPanelId aid) = false) :
    afterLoop dom reg aid = [] := by
  simp [afterLoop, hb, hex]

theorem extractIds_map_some (l : List String) : extractIds (l.map some) = some l := by
  induction l with
  | nil => rfl
  | cons a rest ih => simp [extractIds, ih]

theorem extractIds_of_mem_none (l : List (Option String)) (h : none ∈ l) :
    extractIds l = none := by
  induction l with
  | nil => cases h
  | cons a rest ih =>
    cases a with
    | none => rfl
    | some s =>
      rcases List.mem_cons.mp h with h1 | h1
      · exact absurd h1.symm (by simp)
      · simp [extractIds, ih h1]

theorem extractIds_of_all_some (l : List (Option String)) (h : none ∉ l) :
    ∃ ids, extractIds l = some ids := by
  induction l with
  | nil => exact ⟨[], rfl⟩
  | cons a rest ih =>
    cases a with
    | none => exact absurd (List.mem_cons_self _ _) h
    | some s =>
      obtain ⟨ids, hids⟩ := ih (fun hmem => h (List.mem_cons_of_mem _ hmem))
      exact ⟨s :: ids, by simp [extractIds, hids]⟩

theorem mi_ne_empty (i : String) : "menu-item-" ++ i ≠ "" := by
  intro h
  have h2 : ("menu-item-" ++ i).data.length = ("" : String).data.length := by rw [h]
  rw [String.data_append, List.length_append] at h2
  have h3 : ("menu-item-" : String).data.length = 10 := rfl
  have h4 : ("" : String).data.length = 0 := rfl
  omega

theorem mi_inj {a b : String} (h : "menu-item-" ++ a = "menu-item-" ++ b) : a = b :=
  append_cancel_str h

theorem isBuiltinId_bbcode : isBuiltinId "bbcode" = true := by decide

theorem isBuiltinId_visual : isBuiltinId "visual" = true := by decide

theorem runHandler_rowIds (customIds : List String) (aid : String) (reg : Reg)
    (dom : EditorDom) :
    runHandler (rowIdsOf customIds) (some aid) reg dom
      = some (((rowStrings customIds).map (loopStep dom reg aid)).flatten
          ++ afterLoop dom reg aid) := by
  unfold runHandler rowIdsOf
  rw [extractIds_map_some]

/-- The cumulative effect of the `.each` loop iterations for the registered
custom headers: every existing registered panel other than the clicked one is
hidden, the clicked one and the editor surface are untouched. -/
theorem loop_effect (dom0 : EditorDom) (reg : Reg) (aid : String) :
    ∀ ids : List String, (∀ i ∈ ids, goodId i ∧ panelExists dom0 i = true) →
    ∀ dom : EditorDom,
      (∀ q, plookup q (applyActions dom
            ((ids.map (fun i => loopStep dom0 reg aid ("menu-item-" ++ i))).flatten)).panels
          = if q ∈ ids ∧ aid ≠ "menu-item-" ++ q
              then (plookup q dom.panels).map (fun _ => false)
              else plookup q dom.panels)
      ∧ (applyActions dom
            ((ids.map (fun i => loopStep dom0 reg aid ("menu-item-" ++ i))).flatten)).editorsVisible
          = dom.editorsVisible := by
  intro ids
  induction ids with
  | nil =>
    intro _ dom
    exact ⟨fun q => by simp [applyActions], rfl⟩
  | cons i rest ih =>
    intro hg dom
    obtain ⟨⟨hne, hnb, hres⟩, hex⟩ := hg i (List.mem_cons_self _ _)
    have hgrest : ∀ j ∈ rest, goodId j ∧ panelExists dom0 j = true :=
      fun j hj => hg j (List.mem_cons_of_mem _ hj)
    rw [List.map_cons, List.flatten_cons, applyActions_append]
    by_cases ha : aid = "menu-item-" ++ i
    · rw [loopStep_active dom0 reg aid _ hnb ha]
      have heq : applyActions dom [] = dom := rfl
      rw [heq]
      obtain ⟨ihp, ihe⟩ := ih hgrest dom
      refine ⟨fun q => ?_, ihe⟩
      rw [ihp q]
      by_cases hqi : q = i
      · subst hqi
        simp [ha]
      · by_cases hm : q ∈ rest <;> simp [hm, hqi]
    · have hstep : loopStep dom0 reg aid ("menu-item-" ++ i)
          = hideCbActs reg ++ [Action.hidePanel i] := by
        rw [loopStep_hide dom0 reg aid _ hnb ha (mi_ne_empty i) (by rw [hres]; exact hex),
          hres]
      rw [hstep, applyActions_hideCb]
      have hdom1 : applyActions dom [Action.hidePanel i]
          = { dom with panels := setPanel dom.panels i false } := rfl
      rw [hdom1]
      obtain ⟨ihp, ihe⟩ := ih hgrest { dom with panels := setPanel dom.panels i false }
      refine ⟨fun q => ?_, by rw [ihe]⟩
      rw [ihp q]
      by_cases hqi : q = i
      · subst hqi
        rw [plookup_setPanel_self]
        by_cases hm : q ∈ rest <;> cases plookup q dom.panels <;> simp [hm, ha]
      · have hothr : plookup q (setPanel dom.panels i false) = plookup q dom.panels :=
          plookup_setPanel_ne _ _ _ _ hqi
        rw [hothr]
        by_cases hm : q ∈ rest <;> simp [hm, hqi]

theorem panelExists_some {dom : EditorDom} {i : String} (h : panelExists dom i = true) :
    ∃ b, plookup i dom.panels = some b := by
  unfold panelExists at h
  exact Option.isSome_iff_exists.mp h

/-! ## C1 -/

/-- C1: after any click handled by the tab switch handler on a row of
registered custom tabs (all of whose panels exist), the panel-visibility
state is a function of the clicked header alone — so the property holds
after each click of every click sequence.  When the clicked header is a
custom tab `menu-item-<c>`, exactly the panel `<c>` is visible and every
other registered panel is hidden; when the clicked header is a built-in tab,
the native editor surface is shown and every registered custom panel is
hidden. -/
theorem c1_exactly_one_panel_visible (customIds : List String) (dom : EditorDom)
    (reg : Reg) (clicked : String)
    (hg : ∀ i ∈ customIds, goodId i ∧ panelExists dom i = true) :
    ∃ acts, runHandler (rowIdsOf customIds) (some clicked) reg dom = some acts ∧
      (∀ c ∈ customIds, clicked = "menu-item-" ++ c →
         ∀ i ∈ customIds,
           plookup i (applyActions dom acts).panels = some (decide (i = c))) ∧
      (isBuiltinId clicked = true →
         (applyActions dom acts).editorsVisible = true ∧
         ∀ i ∈ customIds, plookup i (applyActions dom acts).panels = some false) := by
  refine ⟨_, runHandler_rowIds customIds clicked reg dom, ?_⟩
  have hbb := loopStep_builtin dom reg clicked "bbcode" isBuiltinId_bbcode
  have hvv := loopStep_builtin dom reg clicked "visual" isBuiltinId_visual
  have hflat : ((rowStrings customIds).map (loopStep dom reg clicked)).flatten
      = Action.hideEditors :: Action.hideEditors ::
        ((customIds.map (fun i => loopStep dom reg clicked ("menu-item-" ++ i))).flatten) := by
    simp only [rowStrings, List.map_cons, hbb, hvv, List.map_map, List.flatten_cons,
      List.singleton_append, Function.comp_def]
  rw [hflat]
  have hEq : ∀ rest : List Action,
      applyActions dom (Action.hideEditors :: Action.hideEditors :: rest)
        = applyActions ⟨dom.panels, false⟩ rest := fun rest => rfl
  obtain ⟨hloopP, hloopE⟩ :=
    loop_effect dom reg clicked customIds hg (⟨dom.panels, false⟩ : EditorDom)
  constructor
  · -- the clicked header is a registered custom tab
    intro c hc hclicked i hi
    obtain ⟨⟨hneC, hnbC, hresC⟩, hexC⟩ := hg c hc
    obtain ⟨⟨hneI, hnbI, hresI⟩, hexI⟩ := hg i hi
    have hafter : afterLoop dom reg clicked
        = showCbActs reg ++ [Action.showPanel c] := by
      rw [hclicked,
        afterLoop_show dom reg _ hnbC (mi_ne_empty c) (by rw [hresC]; exact hexC), hresC]
    rw [applyActions_append, hEq, hafter, applyActions_showCb]
    have hfinal : applyActions
        (applyActions (⟨dom.panels, false⟩ : EditorDom)
          ((customIds.map (fun j => loopStep dom reg clicked ("menu-item-" ++ j))).flatten))
        [Action.showPanel c]
        = { applyActions (⟨dom.panels, false⟩ : EditorDom)
              ((customIds.map (fun j => loopStep dom reg clicked ("menu-item-" ++ j))).flatten)
            with panels := setPanel (applyActions (⟨dom.panels, false⟩ : EditorDom)
              ((customIds.map (fun j => loopStep dom reg clicked ("menu-item-" ++ j))).flatten)).panels c true } := rfl
    rw [hfinal]
    by_cases hic : i = c
    · subst hic
      rw [plookup_setPanel_self, hloopP i]
      obtain ⟨b, hb⟩ := panelExists_some hexI
      have hcond : ¬ (i ∈ customIds ∧ clicked ≠ "menu-item-" ++ i) := by
        intro hcontra
        exact hcontra.2 hclicked
      rw [if_neg hcond]
      simp [hb]
    · rw [plookup_setPanel_ne _ _ _ _ hic, hloopP i]
      have hcond : i ∈ customIds ∧ clicked ≠ "menu-item-" ++ i := by
        refine ⟨hi, fun heq => hic ?_⟩
        rw [hclicked] at heq
        exact (mi_inj heq).symm
      rw [if_pos hcond]
      obtain ⟨b, hb⟩ := panelExists_some hexI
      simp [hb, hic]
  · -- the clicked header is a built-in tab
    intro hbc
    have hafter : afterLoop dom reg clicked = [Action.showEditors] :=
      afterLoop_builtin dom reg clicked hbc
    rw [applyActions_append, hEq, hafter]
    have hfinal : ∀ d : EditorDom, applyActions d [Action.showEditors]
        = { d with editorsVisible := true } := fun d => rfl
    rw [hfinal]
    refine ⟨rfl, fun i hi => ?_⟩
    obtain ⟨⟨hneI, hnbI, hresI⟩, hexI⟩ := hg i hi
    have hcond : i ∈ customIds ∧ clicked ≠ "menu-item-" ++ i := by
      refine ⟨hi, fun heq => ?_⟩
      rw [heq, hnbI] at hbc
      exact Bool.false_ne_true hbc
    have := hloopP i
    rw [if_pos hcond] at this
    obtain ⟨b, hb⟩ := panelExists_some hexI
    simp only []
    rw [this]
    simp [hb]

/-- Witness for C1: concrete two-tab row, clicking the `alpha` header from a
state in which `beta` is the visible panel. -/
theorem c1_witness :
    (∀ i ∈ ["alpha", "beta"], goodId i ∧ panelExists demoDom i = true) ∧
    (∃ acts, runHandler (rowIdsOf ["alpha", "beta"]) (some "menu-item-alpha")
        demoReg demoDom = some acts ∧
      (∀ c ∈ ["alpha", "beta"], "menu-item-alpha" = "menu-item-" ++ c →
         ∀ i ∈ ["alpha", "beta"],
           plookup i (applyActions demoDom acts).panels = some (decide (i = c))) ∧
      (isBuiltinId "menu-item-alpha" = true →
         (applyActions demoDom acts).editorsVisible = true ∧
         ∀ i ∈ ["alpha", "beta"],
           plookup i (applyActions demoDom acts).panels = some false)) :=
  ⟨by decide,
   c1_exactly_one_panel_visible ["alpha", "beta"] demoDom demoReg "menu-item-alpha"
     (by decide)⟩

/-! ## C2 -/

theorem mem_loopStep {dom : EditorDom} {reg : Reg} {aid li : String} {a : Action}
    (h : a ∈ loopStep dom reg aid li) :
    a = Action.hideEditors ∨ a = Action.cbHide reg.tabId reg.panelId ∨
    ∃ p, a = Action.hidePanel p := by
  unfold loopStep at h
  split at h
  · simp at h
    exact Or.inl h
  · split at h
    · simp at h
    · split at h
      · rcases List.mem_append.mp h with h1 | h1
        · unfold hideCbActs at h1
          split at h1
          · simp at h1
            exact Or.inr (Or.inl h1)
          · simp at h1
        · simp at h1
          exact Or.inr (Or.inr ⟨_, h1⟩)
      · simp at h

theorem mem_afterLoop {dom : EditorDom} {reg : Reg} {aid : String} {a : Action}
    (h : a ∈ afterLoop dom reg aid) :
    a = Action.showEditors ∨ a = Action.cbShow reg.tabId reg.panelId ∨
    ∃ p, a = Action.showPanel p := by
  unfold afterLoop at h
  split at h
  · simp at h
    exact Or.inl h
  · split at h
    · rcases List.mem_append.mp h with h1 | h1
      · unfold showCbActs at h1
        split at h1
        · simp at h1
          exact Or.inr (Or.inl h1)
        · simp at h1
      · simp at h1
        exact Or.inr (Or.inr ⟨_, h1⟩)
    · simp at h

theorem cbShow_not_mem_loop (dom : EditorDom) (reg : Reg) (aid : String)
    (lis : List String) (t p : String) :
    Action.cbShow t p ∉ ((lis.map (loopStep dom reg aid)).flatten) := by
  intro h
  obtain ⟨l, hl, hmem⟩ := List.mem_flatten.mp h
  obtain ⟨li, _, rfl⟩ := List.mem_map.mp hl
  rcases mem_loopStep hmem with h1 | h1 | ⟨q, h1⟩ <;> simp at h1

/-- C2 counterexample: one registered tab `a` with both callbacks; after a
first click its panel is visible and its header active, yet the repeated
click on the same header fires the `show` callback again (count 1, not 0),
so callback call counts do increase on the repeated click. -/
theorem c2_counterexample :
    plookup "a" c2sys2.dom.panels = some true ∧
    (clickActs c2sys1 "menu-item-a").count (Action.cbShow "menu-item-a" "a") = 1 ∧
    (clickActs c2sys2 "menu-item-a").count (Action.cbShow "menu-item-a" "a") = 1 := by
  decide

/-- C2 (amended): clicking a registered custom header is NOT
callback-idempotent.  On every click of the header `menu-item-<c>` (whether
or not it is already the active one — the handler never consults the current
visibility or active state), the handler fires the `show` callback exactly
once whenever one is registered, and fires the `hide` callback again for
every other registered panel present in the document whenever one is
registered; only the entry whose header id equals the clicked id is
skipped. -/
theorem c2_amended_repeat_click_refires (customIds : List String) (dom : EditorDom)
    (reg : Reg) (c : String) (hc : c ∈ customIds)
    (hg : ∀ i ∈ customIds, goodId i ∧ panelExists dom i = true) :
    ∃ acts, runHandler (rowIdsOf customIds) (some ("menu-item-" ++ c)) reg dom = some acts ∧
      acts.count (Action.cbShow reg.tabId reg.panelId)
        = (if reg.events.hasShow then 1 else 0) ∧
      (reg.events.hasHide = true →
        ∀ j ∈ customIds, j ≠ c → Action.cbHide reg.tabId reg.panelId ∈ acts) := by
  refine ⟨_, runHandler_rowIds customIds ("menu-item-" ++ c) reg dom, ?_, ?_⟩
  · obtain ⟨⟨hneC, hnbC, hresC⟩, hexC⟩ := hg c hc
    rw [List.count_append,
      List.count_eq_zero.mpr (cbShow_not_mem_loop dom reg _ (rowStrings customIds)
        reg.tabId reg.panelId),
      afterLoop_show dom reg _ hnbC (mi_ne_empty c) (by rw [hresC]; exact hexC),
      List.count_append]
    unfold showCbActs
    cases hshow : reg.events.hasShow <;> simp
  · intro hh j hj hjc
    obtain ⟨⟨hneJ, hnbJ, hresJ⟩, hexJ⟩ := hg j hj
    apply List.mem_append_left
    apply List.mem_flatten.mpr
    refine ⟨loopStep dom reg ("menu-item-" ++ c) ("menu-item-" ++ j), ?_, ?_⟩
    · exact List.mem_map_of_mem _
        (List.mem_cons_of_mem _ (List.mem_cons_of_mem _ (List.mem_map_of_mem _ hj)))
    · rw [loopStep_hide dom reg _ _ hnbJ (fun heq => hjc (mi_inj heq).symm)
        (mi_ne_empty j) (by rw [hresJ]; exact hexJ)]
      simp [hideCbActs, hh]

/-- Witness for C2's amended theorem: concrete two-tab row, clicking the
already-active `alpha` header. -/
theorem c2_witness :
    ("alpha" ∈ ["alpha", "beta"] ∧
      ∀ i ∈ ["alpha", "beta"], goodId i ∧ panelExists demoDom i = true) ∧
    (∃ acts, runHandler (rowIdsOf ["alpha", "beta"]) (some ("menu-item-" ++ "alpha"))
        demoReg demoDom = some acts ∧
      acts.count (Action.cbShow demoReg.tabId demoReg.panelId)
        = (if demoReg.events.hasShow then 1 else 0) ∧
      (demoReg.events.hasHide = true →
        ∀ j ∈ ["alpha", "beta"], j ≠ "alpha" →
          Action.cbHide demoReg.tabId demoReg.panelId ∈ acts)) :=
  ⟨⟨by decide, by decide⟩,
   c2_amended_repeat_click_refires ["alpha", "beta"] demoDom demoReg "alpha"
     (by decide) (by decide)⟩

/-! ## C3 -/

theorem flatten_map_split {α β : Type} (f : α → List β) (l : List α) (a : α)
    (h : a ∈ l) : ∃ pre post, (l.map f).flatten = pre ++ f a ++ post := by
  obtain ⟨s, t, rfl⟩ := List.append_of_mem h
  exact ⟨(s.map f).flatten, (t.map f).flatten, by simp⟩

/-- C3: when a hide callback is registered, then for every non-built-in
header `menu-item-<j>` of the row that is not the clicked one and whose
resolved panel `<j>` exists in the document, the handler run contains the
`hide` callback invocation — with the registration's tab header and content
panel as its two arguments — immediately followed by the hiding of that
panel, so the panel is only hidden after the callback returns. -/
theorem c3_hide_callback_before_hiding (customIds : List String) (dom : EditorDom)
    (reg : Reg) (aid j : String)
    (hj : j ∈ customIds) (hgj : goodId j) (hex : panelExists dom j = true)
    (hne : aid ≠ "menu-item-" ++ j) (hh : reg.events.hasHide = true) :
    ∃ acts, runHandler (rowIdsOf customIds) (some aid) reg dom = some acts ∧
      ∃ pre post,
        acts = pre ++ [Action.cbHide reg.tabId reg.panelId, Action.hidePanel j] ++ post := by
  refine ⟨_, runHandler_rowIds customIds aid reg dom, ?_⟩
  obtain ⟨hneJ, hnbJ, hresJ⟩ := hgj
  have hstep : loopStep dom reg aid ("menu-item-" ++ j)
      = [Action.cbHide reg.tabId reg.panelId, Action.hidePanel j] := by
    rw [loopStep_hide dom reg aid _ hnbJ hne (mi_ne_empty j) (by rw [hresJ]; exact hex),
      hresJ]
    simp [hideCbActs, hh]
  have hmem : "menu-item-" ++ j ∈ rowStrings customIds :=
    List.mem_cons_of_mem _ (List.mem_cons_of_mem _ (List.mem_map_of_mem _ hj))
  obtain ⟨pre, post, hsplit⟩ := flatten_map_split (loopStep dom reg aid) _ _ hmem
  refine ⟨pre, post ++ afterLoop dom reg aid, ?_⟩
  rw [hsplit, hstep]
  simp

/-- Witness for C3: concrete two-tab row, clicking `beta` while `alpha`'s
panel exists — the `alpha` entry fires the hide callback and is then
hidden. -/
theorem c3_witness :
    ("alpha" ∈ ["alpha", "beta"] ∧ goodId "alpha" ∧ panelExists demoDom "alpha" = true ∧
      "menu-item-beta" ≠ "menu-item-" ++ "alpha" ∧ demoReg.events.hasHide = true) ∧
    (∃ acts, runHandler (rowIdsOf ["alpha", "beta"]) (some "menu-item-beta")
        demoReg demoDom = some acts ∧
      ∃ pre post,
        acts = pre ++ [Action.cbHide demoReg.tabId demoReg.panelId,
          Action.hidePanel "alpha"] ++ post) :=
  ⟨⟨by decide, by decide, by decide, by decide, by decide⟩,
   c3_hide_callback_before_hiding ["alpha", "beta"] demoDom demoReg
     "menu-item-beta" "alpha" (by decide) (by decide) (by decide) (by decide) (by decide)⟩

/-! ## C4 -/

/-- C4: a header entry whose resolved content panel does not exist in the
document is a silent no-op for the handler: its loop iteration performs no
action at all (no callback, no visibility change), the clicked-header code
performs no action when the clicked panel is missing, and the handler run as
a whole still completes without throwing whenever every header carries an
id. -/
theorem c4_missing_panel_silent_noop (dom : EditorDom) (reg : Reg) (aid li : String)
    (rowIds : List (Option String))
    (hb : isBuiltinId li = false)
    (hex : panelExists dom (resolvedPanelId li) = false)
    (hrow : (none : Option String) ∉ rowIds) :
    loopStep dom reg aid li = [] ∧
    afterLoop dom reg li = [] ∧
    ∃ acts, runHandler rowIds (some li) reg dom = some acts :=
  ⟨loopStep_noPanel dom reg aid li hb hex,
   afterLoop_noPanel dom reg li hb hex,
   by
     obtain ⟨ids, hids⟩ := extractIds_of_all_some rowIds hrow
     exact ⟨_, by unfold runHandler; rw [hids]⟩⟩

/-- Witness for C4: the entry `menu-item-gone` resolves to panel `gone`,
absent from the concrete document. -/
theorem c4_witness :
    (isBuiltinId "menu-item-gone" = false ∧
      panelExists demoDom (resolvedPanelId "menu-item-gone") = false ∧
      (none : Option String) ∉ rowIdsOf ["alpha", "gone"]) ∧
    (loopStep demoDom demoReg "menu-item-alpha" "menu-item-gone" = [] ∧
     afterLoop demoDom demoReg "menu-item-gone" = [] ∧
     ∃ acts, runHandler (rowIdsOf ["alpha", "gone"]) (some "menu-item-gone")
        demoReg demoDom = some acts) :=
  ⟨⟨by decide, by decide, by decide⟩,
   c4_missing_panel_silent_noop demoDom demoReg "menu-item-alpha" "menu-item-gone"
     (rowIdsOf ["alpha", "gone"]) (by decide) (by decide) (by decide)⟩

/-! ## C5 -/

/-- C5: a header whose id matches `bbcode` or `visual` case-insensitively is
treated as a reserved built-in tab: its loop iteration hides the native
editor surface and performs nothing else (in particular no callback), the
clicked-header code shows the native editor surface and performs nothing
else, and after any complete handler run for a built-in clicked header the
native editor surface is visible. -/
theorem c5_builtin_headers (dom : EditorDom) (reg : Reg) (aid li : String)
    (h : isBuiltinId li = true) :
    loopStep dom reg aid li = [Action.hideEditors] ∧
    afterLoop dom reg li = [Action.showEditors] ∧
    (∀ rowIds acts, isBuiltinId aid = true →
       runHandler rowIds (some aid) reg dom = some acts →
       (applyActions dom acts).editorsVisible = true) := by
  refine ⟨loopStep_builtin dom reg aid li h, afterLoop_builtin dom reg li h, ?_⟩
  intro rowIds acts hba hrun
  unfold runHandler at hrun
  cases hids : extractIds rowIds with
  | none =>
    rw [hids] at hrun
    simp at hrun
  | some ids =>
    rw [hids] at hrun
    simp only [Option.some.injEq] at hrun
    subst hrun
    rw [afterLoop_builtin dom reg aid hba, applyActions_append]
    rfl

/-- Witness for C5: mixed-case built-in header id `menu-item-BBCode`
(case-insensitive match), with a click on the `visual` built-in header. -/
theorem c5_witness :
    (isBuiltinId "menu-item-BBCode" = true ∧ isBuiltinId "visual" = true) ∧
    (loopStep demoDom demoReg "visual" "menu-item-BBCode" = [Action.hideEditors] ∧
     afterLoop demoDom demoReg "menu-item-BBCode" = [Action.showEditors] ∧
     (∀ rowIds acts, isBuiltinId "visual" = true →
        runHandler rowIds (some "visual") demoReg demoDom = some acts →
        (applyActions demoDom acts).editorsVisible = true)) :=
  ⟨⟨by decide, by decide⟩,
   c5_builtin_headers demoDom demoReg "visual" "menu-item-BBCode" (by decide)⟩

/-! ## C6 -/

theorem ts_inj {n m : Nat} (h : yootilTimestamp n = yootilTimestamp m) : n = m := by
  have h2 : (yootilTimestamp n).data.length = (yootilTimestamp m).data.length := by rw [h]
  have hn : (yootilTimestamp n).data.length = n + 1 := by
    show (List.replicate (n + 1) '1').length = n + 1
    simp
  have hm : (yootilTimestamp m).data.length = m + 1 := by
    show (List.replicate (m + 1) '1').length = m + 1
    simp
  omega

theorem ts_valid (n : Nat) : validDomId (yootilTimestamp n) = true := by
  unfold validDomId
  have hdata : (yootilTimestamp n).data = List.replicate (n + 1) '1' := rfl
  rw [hdata, Bool.and_eq_true]
  constructor
  · rw [List.replicate_succ]
    rfl
  · rw [List.all_eq_true]
    intro c hc
    rw [List.eq_of_mem_replicate hc]
    decide

theorem tsCalls_bbc_tab (sys : TabSystem) (sp : RegSpec) :
    (bbc_tab sys sp).1.tsCalls = if sp.id = "" then sys.tsCalls + 1 else sys.tsCalls := rfl

theorem tsCalls_le_registerAll (specs : List RegSpec) :
    ∀ sys : TabSystem, sys.tsCalls ≤ (registerAll sys specs).tsCalls := by
  induction specs with
  | nil => intro sys; exact Nat.le_refl _
  | cons sp rest ih =>
    intro sys
    have h1 : sys.tsCalls ≤ (bbc_tab sys sp).1.tsCalls := by
      rw [tsCalls_bbc_tab]
      split <;> omega
    exact Nat.le_trans h1 (ih _)

/-- C6: a registration made without an explicit identifier (empty id) is
assigned a value usable as a valid DOM identifier, and two such
registrations — with any registrations in between — are never assigned the
same identifier.  The generator `yootil.timestamp()` is not under src/ and is
modelled from the spec (`yootilTimestamp`). -/
theorem c6_default_ids_valid_and_distinct (sys : TabSystem) (spec1 spec2 : RegSpec)
    (mid : List RegSpec) (h1 : spec1.id = "") (h2 : spec2.id = "") :
    validDomId (bbc_tab sys spec1).2 = true ∧
    validDomId (bbc_tab (registerAll (bbc_tab sys spec1).1 mid) spec2).2 = true ∧
    (bbc_tab sys spec1).2 ≠ (bbc_tab (registerAll (bbc_tab sys spec1).1 mid) spec2).2 := by
  have hid1 : (bbc_tab sys spec1).2 = yootilTimestamp sys.tsCalls := by
    show assignedId sys spec1 = _
    unfold assignedId
    rw [if_pos h1]
  have hc1 : (bbc_tab sys spec1).1.tsCalls = sys.tsCalls + 1 := by
    rw [tsCalls_bbc_tab, if_pos h1]
  have hle := tsCalls_le_registerAll mid (bbc_tab sys spec1).1
  have hid2 : (bbc_tab (registerAll (bbc_tab sys spec1).1 mid) spec2).2
      = yootilTimestamp (registerAll (bbc_tab sys spec1).1 mid).tsCalls := by
    show assignedId _ spec2 = _
    unfold assignedId
    rw [if_pos h2]
  refine ⟨by rw [hid1]; exact ts_valid _, by rw [hid2]; exact ts_valid _, ?_⟩
  rw [hid1, hid2]
  intro heq
  have := ts_inj heq
  omega

/-- Witness for C6: two default-id registrations on the pristine fragment
with one explicit-id registration in between. -/
theorem c6_witness :
    ((⟨"A", "", "", ⟨false, false⟩⟩ : RegSpec).id = "" ∧
      (⟨"B", "", "", ⟨false, false⟩⟩ : RegSpec).id = "") ∧
    (validDomId (bbc_tab initialRow ⟨"A", "", "", ⟨false, false⟩⟩).2 = true ∧
     validDomId (bbc_tab (registerAll (bbc_tab initialRow ⟨"A", "", "", ⟨false, false⟩⟩).1
        [⟨"M", "", "mid", ⟨false, false⟩⟩]) ⟨"B", "", "", ⟨false, false⟩⟩).2 = true ∧
     (bbc_tab initialRow ⟨"A", "", "", ⟨false, false⟩⟩).2
       ≠ (bbc_tab (registerAll (bbc_tab initialRow ⟨"A", "", "", ⟨false, false⟩⟩).1
            [⟨"M", "", "mid", ⟨false, false⟩⟩]) ⟨"B", "", "", ⟨false, false⟩⟩).2) :=
  ⟨⟨rfl, rfl⟩,
   c6_default_ids_valid_and_distinct initialRow ⟨"A", "", "", ⟨false, false⟩⟩
     ⟨"B", "", "", ⟨false, false⟩⟩ [⟨"M", "", "mid", ⟨false, false⟩⟩] rfl rfl⟩

/-! ## C7 -/

/-- C7: after a `bbc_tab` registration whose assigned identifier is fresh in
the document, the row has gained exactly one header, with DOM id
`menu-item-<id>`, at its end; the created content panel with DOM id `<id>`
sits immediately before the tab header row; that panel is initially hidden;
and the function returns the created content panel. -/
theorem c7_registration_postconditions (sys : TabSystem) (spec : RegSpec)
    (hfresh : plookup (assignedId sys spec) sys.dom.panels = none) :
    (bbc_tab sys spec).1.lis.map Li.id
      = sys.lis.map Li.id ++ [some ("menu-item-" ++ assignedId sys spec)] ∧
    (bbc_tab sys spec).1.beforeRow = sys.beforeRow ++ [assignedId sys spec] ∧
    plookup (assignedId sys spec) (bbc_tab sys spec).1.dom.panels = some false ∧
    (bbc_tab sys spec).2 = assignedId sys spec := by
  refine ⟨?_, rfl, ?_, rfl⟩
  · have hcomp : (Li.id ∘ fun li => (⟨li.id, li.handlers ++ [regOf sys spec]⟩ : Li))
        = Li.id := funext fun li => rfl
    show ((sys.lis ++ [(⟨some ("menu-item-" ++ assignedId sys spec), []⟩ : Li)]).map
        (fun li => (⟨li.id, li.handlers ++ [regOf sys spec]⟩ : Li))).map Li.id
      = sys.lis.map Li.id ++ [some ("menu-item-" ++ assignedId sys spec)]
    rw [List.map_map, hcomp, List.map_append]
    rfl
  · show plookup (assignedId sys spec)
        (sys.dom.panels ++ [(assignedId sys spec, false)]) = some false
    rw [plookup_append_left _ _ _ hfresh]
    simp [plookup]

/-- Witness for C7: registering an explicit fresh id `mytab` on the pristine
fragment. -/
theorem c7_witness :
    plookup (assignedId initialRow ⟨"T", "C", "mytab", ⟨false, false⟩⟩)
        initialRow.dom.panels = none ∧
    ((bbc_tab initialRow ⟨"T", "C", "mytab", ⟨false, false⟩⟩).1.lis.map Li.id
        = initialRow.lis.map Li.id
          ++ [some ("menu-item-" ++ assignedId initialRow ⟨"T", "C", "mytab", ⟨false, false⟩⟩)] ∧
     (bbc_tab initialRow ⟨"T", "C", "mytab", ⟨false, false⟩⟩).1.beforeRow
        = initialRow.beforeRow ++ [assignedId initialRow ⟨"T", "C", "mytab", ⟨false, false⟩⟩] ∧
     plookup (assignedId initialRow ⟨"T", "C", "mytab", ⟨false, false⟩⟩)
        (bbc_tab initialRow ⟨"T", "C", "mytab", ⟨false, false⟩⟩).1.dom.panels = some false ∧
     (bbc_tab initialRow ⟨"T", "C", "mytab", ⟨false, false⟩⟩).2
        = assignedId initialRow ⟨"T", "C", "mytab", ⟨false, false⟩⟩) :=
  ⟨rfl,
   c7_registration_postconditions initialRow ⟨"T", "C", "mytab", ⟨false, false⟩⟩ rfl⟩

/-! ## C8 -/

/-- C8: for every key, `__get_data` returns the value stored under that key
in the platform page-data object whenever the key is defined there, and
returns the empty string — never an error value — when the key is absent or
when any level of the platform data object (`proboards`, `dataHash`, `page`)
is missing. -/
theorem c8_get_data_total_lookup
    (pb : Option (Option (Option (List (String × JsVal))))) (key : String) :
    (∀ page v, pb = some (some (some page)) → plookup key page = some v →
       __get_data pb key = v) ∧
    ((pb = none ∨ pb = some none ∨ pb = some (some none)) →
       __get_data pb key = JsVal.str "") ∧
    (∀ page, pb = some (some (some page)) → plookup key page = none →
       __get_data pb key = JsVal.str "") := by
  refine ⟨?_, ?_, ?_⟩
  · intro page v hpb hk
    subst hpb
    have hred : __get_data (some (some (some page))) key
        = match plookup key page with
          | some v => v
          | none => JsVal.str "" := rfl
    rw [hred, hk]
  · intro h
    rcases h with h | h | h <;> subst h <;> rfl
  · intro page hpb hk
    subst hpb
    have hred : __get_data (some (some (some page))) key
        = match plookup key page with
          | some v => v
          | none => JsVal.str "" := rfl
    rw [hred, hk]

/-- Witness for C8: a concrete page-data object with one number-valued key,
queried for a present key, an absent key, and with the platform object
entirely missing. -/
theorem c8_witness :
    __get_data (some (some (some [("threads", JsVal.num 7)]))) "threads" = JsVal.num 7 ∧
    __get_data (some (some (some [("threads", JsVal.num 7)]))) "missing" = JsVal.str "" ∧
    __get_data none "threads" = JsVal.str "" :=
  ⟨(c8_get_data_total_lookup _ "threads").1 _ _ rfl rfl,
   (c8_get_data_total_lookup _ "missing").2.2 _ rfl rfl,
   (c8_get_data_total_lookup none "threads").2.1 (Or.inl rfl)⟩

/-! ## C9 -/

/-- C9: the tab switch handler is not total over arbitrary rows: whenever
some header `li` of the row has no id attribute, any click dispatched to the
handler throws (the undefined id is pattern-matched without a guard) instead
of skipping that header; and conversely, when every header carries an id the
handler always completes without throwing. -/
theorem c9_undefined_id_throws (rowIds : List (Option String)) (reg : Reg)
    (dom : EditorDom) :
    ((none : Option String) ∈ rowIds →
       ∀ clickedId, runHandler rowIds clickedId reg dom = none) ∧
    ((none : Option String) ∉ rowIds →
       ∀ cid : String, ∃ acts, runHandler rowIds (some cid) reg dom = some acts) := by
  constructor
  · intro h clickedId
    unfold runHandler
    rw [extractIds_of_mem_none rowIds h]
  · intro h cid
    obtain ⟨ids, hids⟩ := extractIds_of_all_some rowIds h
    exact ⟨_, by unfold runHandler; rw [hids]⟩

/-- Witness for C9: a row containing an id-less header makes every click
throw; the id-complete row completes. -/
theorem c9_witness :
    ((none : Option String) ∈ [some "bbcode", none] ∧
      ∀ clickedId, runHandler [some "bbcode", none] clickedId demoReg demoDom = none) ∧
    ((none : Option String) ∉ rowIdsOf ["alpha"] ∧
      ∃ acts, runHandler (rowIdsOf ["alpha"]) (some "menu-item-alpha")
        demoReg demoDom = some acts) :=
  ⟨⟨by decide,
    (c9_undefined_id_throws [some "bbcode", none] demoReg demoDom).1 (by decide)⟩,
   ⟨by decide,
    (c9_undefined_id_throws (rowIdsOf ["alpha"]) demoReg demoDom).2 (by decide)
      "menu-item-alpha"⟩⟩

/-! ## C10 -/

theorem registerAll_lis (specs : List RegSpec) :
    ∀ sys : TabSystem, (∀ sp ∈ specs, sp.id ≠ "") →
      (registerAll sys specs).lis
        = sys.lis.map (extendHandlers (specs.map regOfSpec)) ++ newLis specs := by
  induction specs with
  | nil =>
    intro sys _
    show sys.lis = sys.lis.map (extendHandlers []) ++ []
    rw [List.append_nil]
    have hid : extendHandlers ([] : List Reg) = fun li => li := by
      funext li
      show (⟨li.id, li.handlers ++ []⟩ : Li) = li
      rw [List.append_nil]
    rw [hid]
    exact (List.map_id' sys.lis).symm
  | cons sp rest ih =>
    intro sys hne
    have hspne : sp.id ≠ "" := hne sp (List.mem_cons_self _ _)
    have hassigned : assignedId sys sp = sp.id := by
      unfold assignedId
      rw [if_neg hspne]
    have hreg : regOf sys sp = regOfSpec sp := by
      unfold regOf regOfSpec
      rw [hassigned]
    show (registerAll (bbc_tab sys sp).1 rest).lis = _
    rw [ih _ (fun q hq => hne q (List.mem_cons_of_mem _ hq))]
    show (((sys.lis ++ [(⟨some ("menu-item-" ++ assignedId sys sp), []⟩ : Li)]).map
        (fun li => (⟨li.id, li.handlers ++ [regOf sys sp]⟩ : Li))).map
          (extendHandlers (rest.map regOfSpec))) ++ newLis rest
      = sys.lis.map (extendHandlers ((sp :: rest).map regOfSpec)) ++ newLis (sp :: rest)
    rw [hassigned, hreg, List.map_map, List.map_append]
    have hfun : (extendHandlers (rest.map regOfSpec) ∘
        fun li => (⟨li.id, li.handlers ++ [regOfSpec sp]⟩ : Li))
        = extendHandlers ((sp :: rest).map regOfSpec) := by
      funext li
      show (⟨li.id, (li.handlers ++ [regOfSpec sp]) ++ rest.map regOfSpec⟩ : Li)
        = ⟨li.id, li.handlers ++ (regOfSpec sp :: rest.map regOfSpec)⟩
      rw [List.append_assoc, List.singleton_append]
    rw [hfun, List.append_assoc]
    rfl

theorem runHandler_cb_args (rowIds : List (Option String)) (cid : Option String)
    (reg : Reg) (dom : EditorDom) (acts : List Action)
    (hrun : runHandler rowIds cid reg dom = some acts) :
    (∀ t p, Action.cbHide t p ∈ acts → t = reg.tabId ∧ p = reg.panelId) ∧
    (∀ t p, Action.cbShow t p ∈ acts → t = reg.tabId ∧ p = reg.panelId) := by
  unfold runHandler at hrun
  cases hids : extractIds rowIds with
  | none =>
    rw [hids] at hrun
    simp at hrun
  | some ids =>
    rw [hids] at hrun
    cases cid with
    | none => simp at hrun
    | some aid =>
      simp only [Option.some.injEq] at hrun
      subst hrun
      constructor
      · intro t p hmem
        rcases List.mem_append.mp hmem with h1 | h1
        · obtain ⟨l, hl, hm⟩ := List.mem_flatten.mp h1
          obtain ⟨li, _, rfl⟩ := List.mem_map.mp hl
          rcases mem_loopStep hm with h2 | h2 | ⟨q, h2⟩
          · simp at h2
          · simp only [Action.cbHide.injEq] at h2
            exact h2
          · simp at h2
        · rcases mem_afterLoop h1 with h2 | h2 | ⟨q, h2⟩ <;> simp at h2
      · intro t p hmem
        rcases List.mem_append.mp hmem with h1 | h1
        · obtain ⟨l, hl, hm⟩ := List.mem_flatten.mp h1
          obtain ⟨li, _, rfl⟩ := List.mem_map.mp hl
          rcases mem_loopStep hm with h2 | h2 | ⟨q, h2⟩ <;> simp at h2
        · rcases mem_afterLoop h1 with h2 | h2 | ⟨q, h2⟩
          · simp at h2
          · simp only [Action.cbShow.injEq] at h2
            exact h2
          · simp at h2

/-- C10 counterexample: after k = 2 registrations (`a` then `b`), a click on
the second registered header `menu-item-b` runs only 1 handler — the claim
says k = 2 run on any header — while a built-in header does carry 2; the
dispatched click on `menu-item-b` accordingly fires only registration `b`'s
show callback, never registration `a`'s. -/
theorem c10_counterexample :
    (handlersAt c10sys "menu-item-b").length = 1 ∧
    (handlersAt c10sys "bbcode").length = 2 ∧
    Action.cbShow "menu-item-b" "b" ∈ clickActs c10sys "menu-item-b" ∧
    Action.cbShow "menu-item-a" "a" ∉ clickActs c10sys "menu-item-b" := by
  decide

/-- C10 (amended): each registration attaches its click handler to every
header currently in the row, so after the registrations `specs` (explicit
nonempty ids) each pre-existing header — the built-in ones included — carries
one handler per registration, in registration order, while the header created
by the j-th registration carries exactly the handlers of registrations
j, j+1, …; a click on a header therefore runs one handler per registration
made no earlier than that header's creation, not always k.  Moreover, in any
handler run, every `hide` or `show` callback invocation passes the tab header
and content panel captured by that handler's own registration — never those
of the header being iterated or clicked. -/
theorem c10_amended_attachment_and_args (specs : List RegSpec) (sys : TabSystem)
    (hids : ∀ sp ∈ specs, sp.id ≠ "") :
    (registerAll sys specs).lis
      = sys.lis.map (extendHandlers (specs.map regOfSpec)) ++ newLis specs ∧
    (∀ rowIds cid reg dom acts, runHandler rowIds cid reg dom = some acts →
       (∀ t p, Action.cbHide t p ∈ acts → t = reg.tabId ∧ p = reg.panelId) ∧
       (∀ t p, Action.cbShow t p ∈ acts → t = reg.tabId ∧ p = reg.panelId)) :=
  ⟨registerAll_lis specs sys hids,
   fun rowIds cid reg dom acts hrun => runHandler_cb_args rowIds cid reg dom acts hrun⟩

/-- Witness for C10's amended theorem: the two-registration system, whose
built-in headers end up with both handlers and whose `menu-item-b` header
ends up with only registration `b`'s handler. -/
theorem c10_witness :
    (∀ sp ∈ ([⟨"A", "1", "a", ⟨true, true⟩⟩, ⟨"B", "2", "b", ⟨true, true⟩⟩] :
        List RegSpec), sp.id ≠ "") ∧
    ((registerAll initialRow
        [⟨"A", "1", "a", ⟨true, true⟩⟩, ⟨"B", "2", "b", ⟨true, true⟩⟩]).lis
      = initialRow.lis.map (extendHandlers
          (([⟨"A", "1", "a", ⟨true, true⟩⟩, ⟨"B", "2", "b", ⟨true, true⟩⟩] :
            List RegSpec).map regOfSpec))
        ++ newLis [⟨"A", "1", "a", ⟨true, true⟩⟩, ⟨"B", "2", "b", ⟨true, true⟩⟩] ∧
     (∀ rowIds cid reg dom acts, runHandler rowIds cid reg dom = some acts →
        (∀ t p, Action.cbHide t p ∈ acts → t = reg.tabId ∧ p = reg.panelId) ∧
        (∀ t p, Action.cbShow t p ∈ acts → t = reg.tabId ∧ p = reg.panelId))) :=
  ⟨by decide,
   c10_amended_attachment_and_args
     [⟨"A", "1", "a", ⟨true, true⟩⟩, ⟨"B", "2", "b", ⟨true, true⟩⟩]
     initialRow (by decide)⟩

end Yootil
